import Mathlib

/-!
Shallow embedding of the ToDoApp serverless backend (`backend/app.py`).

The backend is a Flask app over a DynamoDB table keyed by
`(user_id, task_id)`.  The embedding models:

* JSON / DynamoDB attribute values (`Val`), items as association lists;
* the timestamp helpers `parse_iso` / `is_overdue` (Python
  `datetime.fromisoformat` after replacing `"Z"` with `"+00:00"`);
* the update-spec builder `_update_spec_from_payload`;
* the store (`table`) with DynamoDB `query` / `update_item` / `delete_item`
  semantics, and the endpoints `list_tasks`, `update_task`, `bulk_tasks`,
  `notify_overdue` together with `_collect_overdue_targets`,
  `_send_overdue_email` and `_mark_notified`.

Impure inputs of the Python code (wall-clock `now`, the `EMAIL_FROM` /
`EMAIL_TO` environment, the outcome of the SES `send_email` call) are passed
as explicit parameters.
-/

namespace ToDo

/-- A JSON / DynamoDB attribute value, the value universe the endpoints
handle: JSON null, a JSON number (int or float, carried exactly as a
rational), a DynamoDB `Decimal` (arbitrary-precision number, also carried as
a rational but kept distinct so that the `Decimal` coercion in the
update-spec builder is observable), and a string. -/
inductive Val where
  | null
  | num (q : ℚ)
  | dec (q : ℚ)
  | str (s : String)
deriving DecidableEq, Repr

/-- Python truthiness of a `Val` (`not v` is `falsy v = true`); a missing
key is handled at each use site. -/
def Val.falsy : Val → Bool
  | .null => true
  | .num q => q = 0
  | .dec q => q = 0
  | .str s => s = ""

/-- An item (or a JSON-object payload): a mapping from field name to value,
as an association list; the first binding of a key is the one that counts
(Python dicts cannot repeat a key at all). -/
abbrev Item := List (String × Val)

/-- Dictionary lookup, `payload.get(k)` / `item.get(k)`. -/
def getAttr (it : Item) (k : String) : Option Val :=
  it.lookup k

/-- Set one field of an item to a value (DynamoDB `SET #k = :v`): replace
the existing binding, or append one. -/
def setAttr (it : Item) (k : String) (v : Val) : Item :=
  if it.any (fun p => p.1 = k) then
    it.map (fun p => if p.1 = k then (k, v) else p)
  else
    it ++ [(k, v)]

/-- Drop one field of an item (DynamoDB `REMOVE #k`); removing an absent
field is a no-op, as in DynamoDB. -/
def removeAttr (it : Item) (k : String) : Item :=
  it.filter (fun p => ¬ p.1 = k)

/-! ### Timestamps

`backend/app.py` parses ISO-8601 timestamps with

    def parse_iso(s: str) -> datetime:
        return datetime.fromisoformat(s.replace("Z", "+00:00"))

    def is_overdue(due_str: str, ref: datetime) -> bool:
        try:
            return parse_iso(due_str).astimezone(timezone.utc) < ref
        except Exception:
            return False

`datetime.fromisoformat` (Python ≤ 3.10 contract, which is why the code
replaces the `Z` designator itself) accepts `YYYY-MM-DD`, optionally
followed by any single separator character and a time
`HH[:MM[:SS[.fff|.ffffff]]]`, optionally followed by a UTC offset
`±HH:MM[:SS]`; all fields are range-checked.  We model a parsed datetime by
its microseconds since the Unix epoch as read off the wall-clock fields,
plus the UTC offset in seconds when one was given.  `astimezone(timezone.utc)`
interprets a naive datetime in the process's local timezone, which is UTC in
the Lambda runtime, so a naive datetime converts with offset `0`. -/

/-- Result of `datetime.fromisoformat`: the wall-clock reading in
microseconds since the epoch, and the UTC offset in seconds when the string
carried one (`none` = naive datetime). -/
structure PyDateTime where
  usec : Int
  offsetSec : Option Int
deriving DecidableEq, Repr

/-- The instant denoted by a parsed datetime, in UTC microseconds since the
epoch; a naive datetime is read as local = UTC time (Lambda runs with
`TZ` = UTC). -/
def PyDateTime.utcUsec (dt : PyDateTime) : Int :=
  dt.usec - 1000000 * dt.offsetSec.getD 0

/-- Read a digit list as a decimal natural number. -/
def digitsToNat (ds : List Char) : Nat :=
  ds.foldl (fun a c => 10 * a + (c.toNat - 48)) 0

/-- Consume exactly `n` decimal digits, returning `acc` extended by them and
the rest of the input. -/
def takeDigits : Nat → Nat → List Char → Option (Nat × List Char)
  | 0, acc, cs => some (acc, cs)
  | n + 1, acc, c :: cs =>
      if c.isDigit then takeDigits n (10 * acc + (c.toNat - 48)) cs else none
  | _ + 1, _, [] => none

/-- Consume one expected character. -/
def expectChar : Char → List Char → Option (List Char)
  | c, d :: cs => if d = c then some cs else none
  | _, [] => none

/-- Gregorian leap year. -/
def isLeap (y : Nat) : Bool :=
  y % 4 = 0 && (y % 100 != 0 || y % 400 = 0)

/-- Number of days of month `m` (1-based) in year `y`. -/
def daysInMonth (y m : Nat) : Nat :=
  if m = 2 then (if isLeap y then 29 else 28)
  else if m = 4 ∨ m = 6 ∨ m = 9 ∨ m = 11 then 30
  else 31

/-- Days from the Unix epoch 1970-01-01 to the civil date `y-m-d`
(proleptic Gregorian, the standard days-from-civil computation). -/
def daysFromCivil (y m d : Nat) : Int :=
  let yy := if m ≤ 2 then y - 1 else y
  let mp := (m + 9) % 12
  let doy := (153 * mp + 2) / 5 + (d - 1)
  let doe := 365 * yy + yy / 4 - yy / 100 + yy / 400 + doy
  (doe : Int) - 719468

/-- Fractional-seconds part after the `'.'`: exactly 3 or 6 digits, yielding
microseconds (the two widths `fromisoformat` accepts). -/
def parseFrac (cs : List Char) : Option (Nat × List Char) :=
  let p := cs.span Char.isDigit
  if p.1.length = 3 then some (1000 * digitsToNat p.1, p.2)
  else if p.1.length = 6 then some (digitsToNat p.1, p.2)
  else none

/-- Time-of-day part `HH[:MM[:SS[.frac]]]`, range-checked; returns
`(hour, minute, second, microsecond, rest)`. -/
def parseTime (cs : List Char) : Option (Nat × Nat × Nat × Nat × List Char) := do
  let (h, cs1) ← takeDigits 2 0 cs
  guard (h < 24)
  match cs1 with
  | ':' :: cs2 => do
    let (mi, cs3) ← takeDigits 2 0 cs2
    guard (mi < 60)
    match cs3 with
    | ':' :: cs4 => do
      let (s, cs5) ← takeDigits 2 0 cs4
      guard (s < 60)
      match cs5 with
      | '.' :: cs6 => do
        let (us, cs7) ← parseFrac cs6
        pure (h, mi, s, us, cs7)
      | _ => pure (h, mi, s, 0, cs5)
    | _ => pure (h, mi, 0, 0, cs3)
  | _ => pure (h, 0, 0, 0, cs1)

/-- UTC-offset part: empty input means a naive datetime, otherwise
`±HH:MM[:SS]` consuming the whole rest of the string; returns the offset in
seconds. -/
def parseOffsetSec : List Char → Option (Option Int)
  | [] => some none
  | c :: cs =>
    if c = '+' ∨ c = '-' then do
      let (oh, cs1) ← takeDigits 2 0 cs
      let cs2 ← expectChar ':' cs1
      let (om, cs3) ← takeDigits 2 0 cs2
      guard (oh < 24 ∧ om < 60)
      let (os, cs4) ← (match cs3 with
        | ':' :: cs5 => do
          let (os, cs6) ← takeDigits 2 0 cs5
          guard (os < 60)
          pure (os, cs6)
        | _ => pure (0, cs3))
      guard (cs4 = [])
      let total : Int := oh * 3600 + om * 60 + os
      pure (some (if c = '-' then -total else total))
    else none

/-- Model of `datetime.fromisoformat` on a character list: date `YYYY-MM-DD`
(year ≥ 1, month and day range-checked), optional single separator character
and time, optional UTC offset. -/
def fromisoformat (cs : List Char) : Option PyDateTime := do
  let (y, cs1) ← takeDigits 4 0 cs
  let cs2 ← expectChar '-' cs1
  let (mo, cs3) ← takeDigits 2 0 cs2
  let cs4 ← expectChar '-' cs3
  let (d, cs5) ← takeDigits 2 0 cs4
  guard (1 ≤ y ∧ 1 ≤ mo ∧ mo ≤ 12 ∧ 1 ≤ d ∧ d ≤ daysInMonth y mo)
  match cs5 with
  | [] => pure { usec := 86400000000 * daysFromCivil y mo d, offsetSec := none }
  | _sep :: cs6 => do
    let (h, mi, s, us, cs7) ← parseTime cs6
    let off ← parseOffsetSec cs7
    pure { usec := 1000000 * (86400 * daysFromCivil y mo d + 3600 * h + 60 * mi + s) + us
           offsetSec := off }

/-- Python `s.replace("Z", "+00:00")`: with a one-character needle this is
exactly a character-by-character substitution. -/
def replaceZ (cs : List Char) : List Char :=
  cs.flatMap (fun c => if c = 'Z' then "+00:00".data else [c])

/-- The source's `parse_iso`: replace `"Z"` with `"+00:00"`, then
`fromisoformat`; `none` models the Python call raising `ValueError`. -/
def parse_iso (s : String) : Option PyDateTime :=
  fromisoformat (replaceZ s.data)

/-- The source's `is_overdue`: parse the due string and compare against the
reference instant `refUsec` (UTC microseconds); any parse failure is caught
by the `try`/`except` and yields `False`.  Total by construction. -/
def is_overdue (due_str : String) (refUsec : Int) : Bool :=
  match parse_iso due_str with
  | some dt => decide (dt.utcUsec < refUsec)
  | none => false

/-- `is_overdue` as called on a raw item value: calling it on a non-string
raises inside the `try` block (`due_str.replace` does not exist on numbers),
which the `except` turns into `False` as well. -/
def dueOverdue (v : Val) (refUsec : Int) : Bool :=
  match v with
  | .str s => is_overdue s refUsec
  | _ => false

/-! ### Numeric strings

Model of Python's numeric string conversions (`Decimal(str)` and
`float(str)`) on the common decimal formats: optional sign, digits with an
optional fraction, optional decimal exponent.  `none` models the conversion
raising (`InvalidOperation` / `ValueError`).  Both conversions are carried
exactly as rationals. -/

/-- Unsigned decimal number `digits[.digits]`; at least one digit overall. -/
def parseUnsigned (cs : List Char) : Option (ℚ × List Char) :=
  let ip := cs.span Char.isDigit
  match ip.2 with
  | '.' :: cs1 =>
    let fp := cs1.span Char.isDigit
    if ip.1.length = 0 ∧ fp.1.length = 0 then none
    else some ((digitsToNat ip.1 : ℚ) + (digitsToNat fp.1 : ℚ) / 10 ^ fp.1.length, fp.2)
  | _ =>
    if ip.1.length = 0 then none else some ((digitsToNat ip.1 : ℚ), ip.2)

/-- Optional exponent part `[eE][±]digits`, consuming the whole rest. -/
def parseExponent : List Char → Option Int
  | [] => some 0
  | c :: cs =>
    if c = 'e' ∨ c = 'E' then
      match cs with
      | '+' :: cs1 =>
        let p := cs1.span Char.isDigit
        if p.1.length = 0 ∨ ¬ p.2 = [] then none else some (digitsToNat p.1)
      | '-' :: cs1 =>
        let p := cs1.span Char.isDigit
        if p.1.length = 0 ∨ ¬ p.2 = [] then none else some (-(digitsToNat p.1 : Int))
      | _ =>
        let p := cs.span Char.isDigit
        if p.1.length = 0 ∨ ¬ p.2 = [] then none else some (digitsToNat p.1)
    else none

/-- Numeric value of a decimal string, or `none` when Python's conversion
would raise. -/
def parseNumber (s : String) : Option ℚ := do
  let (sign, cs) ← (match s.data with
    | '+' :: cs => some ((1 : ℚ), cs)
    | '-' :: cs => some ((-1 : ℚ), cs)
    | cs => some ((1 : ℚ), cs))
  let (m, cs1) ← parseUnsigned cs
  let e ← parseExponent cs1
  pure (sign * m * (10 : ℚ) ^ e)

/-! ### The update-spec builder

    def _update_spec_from_payload(payload: dict):
        set_expr, remove_expr, names, values = [], [], {}, {}
        def add_set(k, v):
            if k == "sort" and v is not None:
                v = Decimal(str(v))
            set_expr.append(f"#_\x7bk\x7d = :\x7bk\x7d"); ...
        for k in ("title", "status", "due_date", "parent_id", "details", "sort"):
            if k in payload:
                if k in ("due_date", "parent_id", "details") and payload[k] in (None, ""):
                    remove_expr.append(...)
                else:
                    add_set(k, payload[k])
        if not set_expr and not remove_expr:
            return None
        add_set("updated_at", now_iso())
        ...

The builder is modelled as returning `Except String (Option UpdateSpec)`:
`.error` when `Decimal(str(v))` raises (only possible for a `sort` value),
`.ok none` for the Python `None` ("no fields"), `.ok (some spec)`
otherwise.  The expression strings, attribute-name and attribute-value maps
are summed up as the two lists of the `UpdateSpec`. -/

/-- A DynamoDB update expression, as the builder produces it: the fields to
`SET` (in order, with their values) and the fields to `REMOVE`. -/
structure UpdateSpec where
  setExpr : List (String × Val)
  removeExpr : List String
deriving DecidableEq, Repr

/-- The mutable field whitelist of the builder's loop, in loop order. -/
def mutableKeys : List String :=
  ["title", "status", "due_date", "parent_id", "details", "sort"]

/-- The fields for which null / empty string means removal. -/
def removableKeys : List String :=
  ["due_date", "parent_id", "details"]

/-- Model of `Decimal(str(v))`: a number converts exactly, a numeric string
parses, anything else raises `InvalidOperation`. -/
def decimalOfVal : Val → Except String Val
  | .num q => .ok (.dec q)
  | .dec q => .ok (.dec q)
  | .str s =>
    match parseNumber s with
    | some q => .ok (.dec q)
    | none => .error "InvalidOperation"
  | .null => .error "InvalidOperation"

/-- The coercion inside `add_set`: only a non-null `sort` value goes through
`Decimal(str(v))`; every other value is stored verbatim. -/
def coerceForSet (k : String) (v : Val) : Except String Val :=
  if k = "sort" ∧ ¬ v = .null then decimalOfVal v else .ok v

/-- The builder's loop over `mutableKeys`: collect the `SET` entries (with
`add_set`'s coercion applied) and the `REMOVE` entries, in key order. -/
def buildEntries (payload : Item) : List String → Except String (List (String × Val) × List String)
  | [] => .ok ([], [])
  | k :: ks =>
    match getAttr payload k with
    | none => buildEntries payload ks
    | some v =>
      if k ∈ removableKeys ∧ (v = .null ∨ v = .str "") then
        match buildEntries payload ks with
        | .error e => .error e
        | .ok (s, r) => .ok (s, k :: r)
      else
        match coerceForSet k v with
        | .error e => .error e
        | .ok v' =>
          match buildEntries payload ks with
          | .error e => .error e
          | .ok (s, r) => .ok ((k, v') :: s, r)

/-- When the loop emits `SET k = v` for a payload: `k`'s payload value `w`
exists, is not a removal sentinel for a removable key, and `add_set`'s
coercion turns it into `v`. -/
def SetCond (payload : Item) (k : String) (v : Val) : Prop :=
  ∃ w, getAttr payload k = some w ∧
    ¬ (k ∈ removableKeys ∧ (w = Val.null ∨ w = Val.str "")) ∧
    coerceForSet k w = .ok v

/-- When the loop emits `REMOVE k` for a payload: `k` is removable and its
payload value is null or the empty string. -/
def RemoveCond (payload : Item) (k : String) : Prop :=
  ∃ w, getAttr payload k = some w ∧ k ∈ removableKeys ∧
    (w = Val.null ∨ w = Val.str "")

/-- The source's `_update_spec_from_payload`, with the wall-clock `now`
(`now_iso()`) passed explicitly.  `.ok none` is the Python `None`
(the "no fields" no-op), checked before `updated_at` is appended. -/
def _update_spec_from_payload (now : String) (payload : Item) :
    Except String (Option UpdateSpec) :=
  match buildEntries payload mutableKeys with
  | .error e => .error e
  | .ok (s, r) =>
    if s = [] ∧ r = [] then .ok none
    else .ok (some { setExpr := s ++ [("updated_at", .str now)], removeExpr := r })

/-! ### The store

The DynamoDB table keyed by `(user_id, task_id)`, modelled as an
association list.  Operation semantics follow the AWS DynamoDB contract the
code relies on:

* `query(user_id)` returns the partition's items (read-after-write, the
  code passes `ConsistentRead=True` where it matters);
* `delete_item` is unconditional and succeeds whether or not the key exists;
* `update_item` **edits the existing item or creates a new item if the key
  does not exist** (upsert).  It raises `ConditionalCheckFailedException`
  only when a `ConditionExpression` was supplied and failed; the code never
  supplies one, so the modelled call always succeeds.  The `Except` layer
  carries the `ClientError` code so the caller's `except` branch can be
  written exactly as in the source. -/

/-- A table key: `(user_id, task_id)`. -/
abbrev Key := String × String

/-- The table: association list from key to item. -/
abbrev Store := List (Key × Item)

/-- Point lookup. -/
def storeGet (st : Store) (k : Key) : Option Item :=
  (st.find? (fun p => p.1 = k)).map (fun p => p.2)

/-- Replace the binding of `k` (or append one). -/
def storePut (st : Store) (k : Key) (it : Item) : Store :=
  if st.any (fun p => p.1 = k) then
    st.map (fun p => if p.1 = k then (k, it) else p)
  else
    st ++ [(k, it)]

/-- `table.delete_item(Key=...)`: unconditional, idempotent. -/
def storeDelete (st : Store) (k : Key) : Store :=
  st.filter (fun p => ¬ p.1 = k)

/-- `table.query(KeyConditionExpression=Key("user_id").eq(user))`: the items
of the partition, in store order. -/
def queryUser (st : Store) (user : String) : List Item :=
  (st.filter (fun p => p.1.1 = user)).map (fun p => p.2)

/-- Apply an update expression to an item: all `SET`s, then all `REMOVE`s
(the builder keeps the two field sets disjoint, so the order is immaterial). -/
def applySpec (spec : UpdateSpec) (it : Item) : Item :=
  spec.removeExpr.foldl removeAttr
    (spec.setExpr.foldl (fun acc p => setAttr acc p.1 p.2) it)

/-- `table.update_item(Key=..., ReturnValues="ALL_NEW", **spec)` with no
`ConditionExpression`: upsert per the DynamoDB contract.  When the key is
absent a fresh item holding just the key attributes is created and the
expression is applied to it.  Always `.ok`; the error branch
(`ClientError` code) exists so callers can pattern-match as the source does,
and is provably never taken. -/
def updateItemAllNew (st : Store) (k : Key) (spec : UpdateSpec) :
    Except String (Item × Store) :=
  let base := (storeGet st k).getD [("user_id", .str k.1), ("task_id", .str k.2)]
  let it' := applySpec spec base
  .ok (it', storePut st k it')

/-! ### The endpoints -/

/-- Response of `PATCH /tasks/<task_id>`. -/
inductive UpdateResult where
  | noFields
  | ok (attrs : Item)
  | notFound
  | error (msg : String)
deriving DecidableEq, Repr

/-- The source's `update_task` endpoint.  `noFields` is the 400
`\x7b"message": "no fields"\x7d` response, `ok` the 200 response carrying
`resp["Attributes"]`, `notFound` the 404 taken when the store raises
`ConditionalCheckFailedException`, `error` an uncaught exception (500). -/
def update_task (now : String) (st : Store) (user tid : String) (body : Item) :
    UpdateResult × Store :=
  match _update_spec_from_payload now body with
  | .error e => (.error e, st)
  | .ok none => (.noFields, st)
  | .ok (some spec) =>
    match updateItemAllNew st (user, tid) spec with
    | .ok (attrs, st') => (.ok attrs, st')
    | .error code =>
      if code = "ConditionalCheckFailedException" then (.notFound, st)
      else (.error code, st)

/-- `DELETE /tasks/<task_id>`: unconditional delete, 204. -/
def delete_task (st : Store) (user tid : String) : Store :=
  storeDelete st (user, tid)

/-- Model of `float(x)` on an attribute value: numbers convert exactly,
numeric strings parse, `None` (and a non-numeric string) raises
`TypeError` / `ValueError`. -/
def floatOfVal : Val → Option ℚ
  | .num q => some q
  | .dec q => some q
  | .str s => parseNumber s
  | .null => none

/-- The sort key of `sorted(items, key=lambda x: float(x.get("sort", 1e18)))`:
a missing `sort` field defaults to the float `1e18` = 10^18 (exactly
representable); `none` models the key function raising. -/
def sortKeyOf (it : Item) : Option ℚ :=
  match getAttr it "sort" with
  | none => some 1000000000000000000
  | some v => floatOfVal v

/-- Total version of the sort key used once every item's key is known to
evaluate (the default is irrelevant then). -/
def sortKeyD (it : Item) : ℚ :=
  (sortKeyOf it).getD 0

/-- The source's `list_tasks` endpoint: query the owner's items and sort
ascending by the float sort key (Python `sorted` — a stable mergesort).
`error` models the key function raising on some item
(`float(None)` / `float("abc")`), which Python surfaces as a 500. -/
def list_tasks (st : Store) (user : String) : Except String (List Item) :=
  let items := queryUser st user
  if items.all (fun it => (sortKeyOf it).isSome) then
    .ok (items.mergeSort (fun a b => decide (sortKeyD a ≤ sortKeyD b)))
  else .error "TypeError"

/-! ### Overdue scan and notify -/

/-- Status gate of the overdue scan: `it.get("status") in ("open", "overdue")`
(a missing status compares unequal to both, like Python `None`). -/
def statusEligible (it : Item) : Bool :=
  getAttr it "status" = some (.str "open") ∨ getAttr it "status" = some (.str "overdue")

/-- The source's `_collect_overdue_targets`, with the wall-clock `now`
passed as UTC microseconds.  An item is kept iff its `due_date` is present
and truthy, its status is `open` or `overdue`, and `is_overdue` holds; the
loop's `continue`s make this a filter preserving item order.  Note the loop
never reads `overdue_notified_at`. -/
def _collect_overdue_targets (nowUsec : Int) (items : List Item) : List Item :=
  items.filter (fun it =>
    match getAttr it "due_date" with
    | none => false
    | some due => ¬ due.falsy ∧ statusEligible it ∧ dueOverdue due nowUsec)

/-- The distinct failures of `_send_overdue_email`: the `RuntimeError` raised
before any transport use when `EMAIL_FROM` / `EMAIL_TO` is missing, versus a
failure of the SES `send_email` call itself. -/
inductive NotifyError where
  | configurationError (msg : String)
  | transportError (msg : String)
deriving DecidableEq, Repr

/-- The `str(e)` the endpoint reports for a notify failure. -/
def NotifyError.message : NotifyError → String
  | .configurationError m => m
  | .transportError m => m

/-- The two environment variables the mailer needs; `some ""` is an empty
(falsy) setting, `none` an absent one. -/
structure EmailEnv where
  emailFrom : Option String
  emailTo : Option String
deriving DecidableEq, Repr

/-- Python truthiness of an optional environment string (`not EMAIL_FROM`). -/
def envFalsy (o : Option String) : Bool :=
  o = none ∨ o = some ""

/-- The source's `_send_overdue_email`, with the SES call's outcome passed
as `sesFailure` (`none` = the send succeeds, `some msg` = `send_email`
raises with message `msg`).  The configuration check runs first and raises
`RuntimeError` before any transport use; the e-mail body composition is
pure string formatting and does not affect control flow, so it is not
modelled.  Returns the raised error, if any. -/
def _send_overdue_email (env : EmailEnv) (sesFailure : Option String)
    (_targets : List Item) : Option NotifyError :=
  if envFalsy env.emailFrom ∨ envFalsy env.emailTo then
    some (.configurationError "EMAIL_FROM/EMAIL_TO environment variables are required.")
  else
    match sesFailure with
    | some msg => some (.transportError msg)
    | none => none

/-- The update expression `_mark_notified` sends for every target:
`SET status = "overdue", overdue_notified_at = now, updated_at = now`. -/
def markSpec (nowS : String) : UpdateSpec :=
  { setExpr := [("status", .str "overdue"), ("overdue_notified_at", .str nowS),
                ("updated_at", .str nowS)]
    removeExpr := [] }

/-- The source's `_mark_notified`: one `update_item` per target, counting
successes; any per-item exception (e.g. a missing or non-string
`it["task_id"]`) is swallowed by the `except: pass` and the loop goes on. -/
def _mark_notified (nowS : String) (st : Store) (user : String)
    (targets : List Item) : Nat × Store :=
  targets.foldl
    (fun acc it =>
      match getAttr it "task_id" with
      | some (.str tid) =>
        match updateItemAllNew acc.2 (user, tid) (markSpec nowS) with
        | .ok (_, st') => (acc.1 + 1, st')
        | .error _ => acc
      | _ => acc)
    (0, st)

/-- Response of `POST /notify/overdue`: `noTargets` is the 200
`\x7b"sent": 0, "notified": 0\x7d` short-circuit, `sendError` the 500
`\x7b"sent": 0, "error": msg\x7d` taken when `_send_overdue_email` raises,
`sent` the 200 `\x7b"sent": 1, "target_count": ..., "notified": ...\x7d`. -/
inductive NotifyResult where
  | noTargets
  | sendError (msg : String)
  | sent (targetCount notified : Nat)
deriving DecidableEq, Repr

/-- The source's `notify_overdue` endpoint: query the owner's items, collect
the targets, stop if there are none; try the send and on failure return
with the store untouched; only after a successful send run `_mark_notified`. -/
def notify_overdue (env : EmailEnv) (sesFailure : Option String) (nowUsec : Int)
    (nowS : String) (st : Store) (user : String) : NotifyResult × Store :=
  let targets := _collect_overdue_targets nowUsec (queryUser st user)
  if targets.isEmpty then (.noTargets, st)
  else
    match _send_overdue_email env sesFailure targets with
    | some e => (.sendError e.message, st)
    | none =>
      let m := _mark_notified nowS st user targets
      (.sent targets.length m.1, m.2)

/-! ### Bulk -/

/-- One operation of a `POST /tasks/bulk` body: `op.get("id")`,
`op.get("action")` and `op.get("payload")` (a payload is a JSON object or,
for the `status` shorthand, a bare string). -/
structure BulkOp where
  id : Option String
  action : Option String
  payload : Option (Item ⊕ String)
deriving DecidableEq, Repr

/-- A per-op success record `\x7b"i": i, "id": tid, "action": a, "ok": True\x7d`. -/
structure OpOk where
  i : Nat
  id : String
  action : String
deriving DecidableEq, Repr

/-- A per-op error record `\x7b"i": i, "id": tid, "action": act, "error": e\x7d`
(`id` is `None` when the op had none). -/
structure OpErr where
  i : Nat
  id : Option String
  action : String
  error : String
deriving DecidableEq, Repr

/-- The action whitelist of the bulk loop. -/
def validActions : List String :=
  ["delete", "patch", "update", "status"]

/-- The lowered action string `(op.get("action") or "").lower()`. -/
def lowerAction (op : BulkOp) : String :=
  (op.action.getD "").toLower

/-- The payload after the loop's normalisation: `op.get("payload") or \x7b\x7d`
(absent and falsy payloads become the empty dict — note an empty *string*
payload is falsy too), then the `status` shorthand turns a bare string into
`\x7b"status": s\x7d`. -/
def effectivePayload (act : String) (p : Option (Item ⊕ String)) : Item ⊕ String :=
  let p0 : Item ⊕ String :=
    match p with
    | none => .inl []
    | some (.inl d) => .inl d
    | some (.inr s) => if s = "" then .inl [] else .inr s
  match p0 with
  | .inr s => if act = "status" then .inl [("status", .str s)] else .inr s
  | .inl d => .inl d

/-- Substring test on character lists (Python `k in payload` when `payload`
is a string). -/
def hasInfix (needle hay : List Char) : Bool :=
  hay.tails.any (fun t => needle.isPrefixOf t)

/-- `_update_spec_from_payload` applied to a string payload that survived
normalisation (non-empty, action not `status`): Python's `k in payload` is
then a substring test and `payload[k]` raises `TypeError`; when no mutable
key occurs in the string both expression lists stay empty and the builder
returns `None`. -/
def specOfStrPayload (s : String) : Except String (Option UpdateSpec) :=
  if mutableKeys.any (fun k => hasInfix k.data s.data) then
    .error "string indices must be integers"
  else .ok none

/-- The update spec of one bulk op's payload. -/
def specOfPayload (now : String) : Item ⊕ String → Except String (Option UpdateSpec)
  | .inl d => _update_spec_from_payload now d
  | .inr s => specOfStrPayload s

/-- One iteration of the bulk loop at index `i`: the `try` block validates
the op, runs the delete or the patch, and any raise is recorded as a per-op
error `\x7b"i": i, "id": tid, "action": act, "error": str(e)\x7d`.  Successful
patch/update/status ops are all recorded with action `"patch"`, as in the
source. -/
def bulkStep (now user : String) (st : Store) (i : Nat) (op : BulkOp) :
    Store × (OpOk ⊕ OpErr) :=
  let act := lowerAction op
  match op.id with
  | none => (st, .inr ⟨i, none, act, "invalid op"⟩)
  | some tid =>
    if tid = "" ∨ ¬ act ∈ validActions then
      (st, .inr ⟨i, some tid, act, "invalid op"⟩)
    else if act = "delete" then
      (storeDelete st (user, tid), .inl ⟨i, tid, "delete"⟩)
    else
      match specOfPayload now (effectivePayload act op.payload) with
      | .error e => (st, .inr ⟨i, some tid, act, e⟩)
      | .ok none => (st, .inr ⟨i, some tid, act, "no fields"⟩)
      | .ok (some spec) =>
        match updateItemAllNew st (user, tid) spec with
        | .ok (_, st') => (st', .inl ⟨i, tid, "patch"⟩)
        | .error e => (st, .inr ⟨i, some tid, act, e⟩)

/-- The bulk loop from index `i`: thread the store, collect the success and
error records in op order. -/
def bulkRun (now user : String) : Store → Nat → List BulkOp →
    Store × List OpOk × List OpErr
  | st, _, [] => (st, [], [])
  | st, i, op :: rest =>
    match bulkStep now user st i op with
    | (st', .inl r) =>
      let out := bulkRun now user st' (i + 1) rest
      (out.1, r :: out.2.1, out.2.2)
    | (st', .inr e) =>
      let out := bulkRun now user st' (i + 1) rest
      (out.1, out.2.1, e :: out.2.2)

/-- Response of `POST /tasks/bulk`: `tooMany` is the 400
`"too many ops (<=50)"` rejection, `done ok results errors` the 200
response (`ok` iff the error list is empty).  The source's other 400,
`"ops must be an array"`, is a JSON-typing guard that the typed `ops`
parameter makes unrepresentable here. -/
inductive BulkResult where
  | tooMany
  | done (ok : Bool) (results : List OpOk) (errors : List OpErr)
deriving DecidableEq, Repr

/-- The source's `bulk_tasks` endpoint: reject batches longer than 50 before
touching any op, otherwise run the ops in array order. -/
def bulk_tasks (now user : String) (st : Store) (ops : List BulkOp) :
    BulkResult × Store :=
  if ops.length > 50 then (.tooMany, st)
  else
    let out := bulkRun now user st 0 ops
    (.done (out.2.2.length = 0) out.2.1 out.2.2, out.1)

/-! ### Concrete fixtures used by witnesses and counterexamples -/

/-- 2026-01-01T00:00:00Z in UTC microseconds since the epoch. -/
def sampleNowUsec : Int := 1767225600000000

/-- An `open` task whose due date has passed at `sampleNowUsec`. -/
def overdueOpenItem : Item :=
  [("user_id", .str "me"), ("task_id", .str "t1"), ("title", .str "A"),
   ("status", .str "open"), ("due_date", .str "2020-01-01T00:00:00Z")]

/-- A store holding just `overdueOpenItem`. -/
def demoStore : Store := [(("me", "t1"), overdueOpenItem)]

/-- A task that was already marked notified (`overdue_notified_at` set,
status `overdue`) and whose due date has passed at `sampleNowUsec`. -/
def notifiedItem : Item :=
  [("user_id", .str "me"), ("task_id", .str "t2"), ("title", .str "B"),
   ("status", .str "overdue"), ("due_date", .str "2020-01-01T00:00:00Z"),
   ("overdue_notified_at", .str "2025-06-01T00:00:00Z")]

/-- An item with a very large `sort` value, 2·10^18 > the 1e18 default. -/
def highSortItem : Item :=
  [("task_id", .str "a"), ("sort", .num 2000000000000000000)]

/-- An item with no `sort` field. -/
def noSortItem : Item := [("task_id", .str "b")]

/-- A one-owner store with `highSortItem` and `noSortItem`. -/
def sortStore : Store := [(("me", "a"), highSortItem), (("me", "b"), noSortItem)]

end ToDo

namespace ToDo

/-! ## Lemmas and claim theorems -/

/-- Python's single-character `replace` distributes over concatenation. -/
theorem replaceZ_append (a b : List Char) :
    replaceZ (a ++ b) = replaceZ a ++ replaceZ b :=
  List.flatMap_append a b _

/-- Appending the `Z` designator and appending `+00:00` produce the same
parse, because `parse_iso` rewrites every `Z` to `+00:00` first. -/
theorem parse_iso_append_z (s : String) :
    parse_iso (s ++ "Z") = parse_iso (s ++ "+00:00") := by
  unfold parse_iso
  rw [String.data_append, String.data_append, replaceZ_append, replaceZ_append]
  have h1 : replaceZ "Z".data = "+00:00".data := by decide
  have h2 : replaceZ "+00:00".data = "+00:00".data := by decide
  rw [h1, h2]

/-- C9: the overdue-timestamp check is total (it returns a `Bool` for every
string, by construction) and fails open: a `due_date` string that does not
parse is classified as not overdue, and the `Z` UTC-designator suffix is
accepted as equivalent to the `+00:00` offset. -/
theorem is_overdue_fails_open_and_accepts_z (refUsec : Int) (s : String) :
    (parse_iso s = none → is_overdue s refUsec = false) ∧
    is_overdue (s ++ "Z") refUsec = is_overdue (s ++ "+00:00") refUsec := by
  constructor
  · intro h
    unfold is_overdue
    rw [h]
  · unfold is_overdue
    rw [parse_iso_append_z]

/-- C9 witness: a garbage string does not parse and is not overdue; a real
timestamp with the `Z` suffix parses, is overdue against 2026-01-01, and
agrees with its `+00:00` spelling. -/
theorem is_overdue_fails_open_and_accepts_z_w :
    parse_iso "oops" = none ∧ is_overdue "oops" 0 = false ∧
    is_overdue "2020-01-01T00:00:00Z" sampleNowUsec = true ∧
    is_overdue ("2020-01-01T00:00:00" ++ "Z") sampleNowUsec =
      is_overdue ("2020-01-01T00:00:00" ++ "+00:00") sampleNowUsec :=
  ⟨by decide, (is_overdue_fails_open_and_accepts_z 0 "oops").1 (by decide), by decide,
    (is_overdue_fails_open_and_accepts_z sampleNowUsec "2020-01-01T00:00:00").2⟩

/-- C5: invoking the mailer with either address missing (or empty) reports
the configuration `RuntimeError`, which is never the transport error: the
configuration check runs before the transport is touched, whatever the
transport would have done. -/
theorem send_without_config_is_configuration_error (env : EmailEnv)
    (sesFailure : Option String) (targets : List Item)
    (h : envFalsy env.emailFrom = true ∨ envFalsy env.emailTo = true) :
    _send_overdue_email env sesFailure targets =
      some (.configurationError
        "EMAIL_FROM/EMAIL_TO environment variables are required.") ∧
    ∀ m, ¬ _send_overdue_email env sesFailure targets =
      some (.transportError m) := by
  constructor
  · unfold _send_overdue_email
    rw [if_pos h]
  · intro m
    unfold _send_overdue_email
    rw [if_pos h]
    simp

/-- C5 witness: missing `EMAIL_FROM` with a transport that would fail still
reports the configuration error. -/
theorem send_without_config_is_configuration_error_w :
    _send_overdue_email ⟨none, some "to@example.com"⟩ (some "boom") [] =
      some (.configurationError
        "EMAIL_FROM/EMAIL_TO environment variables are required.") :=
  (send_without_config_is_configuration_error ⟨none, some "to@example.com"⟩
    (some "boom") [] (Or.inl (by decide))).1

/-- C3: when the targets are non-empty and the e-mail send raises,
`notify_overdue` reports `sent=0` with the error's message and returns the
store exactly as it was: `_mark_notified` runs only after a successful
send, so no task's `status`, `overdue_notified_at` or `updated_at` moves. -/
theorem notify_send_failure_is_stateless (env : EmailEnv)
    (sesFailure : Option String) (nowUsec : Int) (nowS : String) (st : Store)
    (user : String) (e : NotifyError)
    (hne : ¬ _collect_overdue_targets nowUsec (queryUser st user) = [])
    (hfail : _send_overdue_email env sesFailure
      (_collect_overdue_targets nowUsec (queryUser st user)) = some e) :
    notify_overdue env sesFailure nowUsec nowS st user =
      (.sendError e.message, st) := by
  unfold notify_overdue
  have hempty : (_collect_overdue_targets nowUsec (queryUser st user)).isEmpty = false := by
    simpa [List.isEmpty_iff] using hne
  simp only [hempty, hfail, Bool.false_eq_true, if_false]

/-- C3 witness: one overdue open task, full configuration, transport stubbed
to fail with "boom": the response carries the error and the store is
unchanged. -/
theorem notify_send_failure_is_stateless_w :
    notify_overdue ⟨some "from@example.com", some "to@example.com"⟩ (some "boom")
      sampleNowUsec "NOW" demoStore "me" = (.sendError "boom", demoStore) :=
  notify_send_failure_is_stateless _ _ _ _ _ _ (NotifyError.transportError "boom")
    (by decide) (by decide)

/-- C1: the update endpoint cannot answer 404.  `update_item` is called
without any `ConditionExpression`, so by the DynamoDB contract it upserts
and never raises `ConditionalCheckFailedException`; the endpoint's 404
branch is dead code.  Concretely, updating the non-existent id `"missing"`
with `\x7b"status": "done"\x7d` on an empty store creates a fresh item and
returns it with 200. -/
theorem update_task_upserts_missing_key :
    (∀ (now : String) (st : Store) (user tid : String) (body : Item),
      ¬ (update_task now st user tid body).1 = UpdateResult.notFound) ∧
    update_task "2026-01-01T00:00:00+00:00" [] "me" "missing"
        [("status", Val.str "done")] =
      (UpdateResult.ok
        [("user_id", .str "me"), ("task_id", .str "missing"),
         ("status", .str "done"),
         ("updated_at", .str "2026-01-01T00:00:00+00:00")],
       [(("me", "missing"),
         [("user_id", .str "me"), ("task_id", .str "missing"),
          ("status", .str "done"),
          ("updated_at", .str "2026-01-01T00:00:00+00:00")])]) := by
  constructor
  · intro now st user tid body
    unfold update_task
    cases h : _update_spec_from_payload now body with
    | error e => simp
    | ok o => cases o <;> simp [updateItemAllNew]
  · decide

/-- C2 counterexample: a task with `overdue_notified_at` already set (and
status `overdue`, due date long past) is still collected as a notification
target — the scan never reads the flag. -/
theorem collect_targets_includes_notified_cex :
    ¬ getAttr notifiedItem "overdue_notified_at" = none ∧
    _collect_overdue_targets sampleNowUsec [notifiedItem] = [notifiedItem] := by
  exact ⟨by decide, by decide⟩

/-- C2 (amended): an item is a notification target iff it is one of the
scanned items, its `due_date` is present and truthy, its status is `open`
or `overdue`, and the due date parses to an instant strictly before now —
the `overdue_notified_at` flag is not consulted, so already-notified tasks
are targeted again. -/
theorem mem_collect_overdue_targets_iff (nowUsec : Int) (items : List Item)
    (it : Item) :
    it ∈ _collect_overdue_targets nowUsec items ↔
      it ∈ items ∧ ∃ due, getAttr it "due_date" = some due ∧
        due.falsy = false ∧ statusEligible it = true ∧
        dueOverdue due nowUsec = true := by
  unfold _collect_overdue_targets
  rw [List.mem_filter]
  refine and_congr_right fun _ => ?_
  cases h : getAttr it "due_date" with
  | none => simp [h]
  | some due => simp [h]

/-! ### Structure of the update-spec builder's loop -/

/-- When no key of `ks` occurs in the payload, the loop collects nothing. -/
theorem buildEntries_of_absent (payload : Item) :
    ∀ ks, (∀ k ∈ ks, getAttr payload k = none) →
      buildEntries payload ks = .ok ([], []) := by
  intro ks
  induction ks with
  | nil => intro _; rfl
  | cons k0 ks ih =>
    intro h
    have h0 := h k0 (List.mem_cons_self k0 ks)
    simp only [buildEntries, h0]
    exact ih fun k hk => h k (List.mem_cons_of_mem _ hk)

/-- Conversely, an empty collection means no key of `ks` occurs in the
payload. -/
theorem absent_of_buildEntries_nil (payload : Item) :
    ∀ ks, buildEntries payload ks = .ok ([], []) →
      ∀ k ∈ ks, getAttr payload k = none := by
  intro ks
  induction ks with
  | nil => intro _ k hk; exact absurd hk (List.not_mem_nil k)
  | cons k0 ks ih =>
    intro h k hk
    cases hg : getAttr payload k0 with
    | none =>
      simp only [buildEntries, hg] at h
      rcases List.mem_cons.mp hk with rfl | hk'
      · exact hg
      · exact ih h k hk'
    | some v =>
      simp only [buildEntries, hg] at h
      split at h
      · cases hb : buildEntries payload ks with
        | error e => simp only [hb] at h; simp at h
        | ok p =>
          obtain ⟨s', r'⟩ := p
          simp only [hb] at h
          simp at h
      · cases hc : coerceForSet k0 v with
        | error e => simp only [hc] at h; simp at h
        | ok v' =>
          simp only [hc] at h
          cases hb : buildEntries payload ks with
          | error e => simp only [hb] at h; simp at h
          | ok p =>
            obtain ⟨s', r'⟩ := p
            simp only [hb] at h
            simp at h

/-- Membership characterisation of the two entry lists the loop produces:
`SET` entries are exactly the present, non-removal keys of `ks` with their
coerced values; `REMOVE` entries are exactly the present removal-sentinel
keys. -/
theorem mem_buildEntries (payload : Item) :
    ∀ ks s r, buildEntries payload ks = .ok (s, r) →
      (∀ k v, ((k, v) ∈ s ↔ k ∈ ks ∧ SetCond payload k v)) ∧
      (∀ k, (k ∈ r ↔ k ∈ ks ∧ RemoveCond payload k)) := by
  intro ks
  induction ks with
  | nil =>
    intro s r h
    simp only [buildEntries, Except.ok.injEq, Prod.mk.injEq] at h
    obtain ⟨rfl, rfl⟩ := h
    simp
  | cons k0 ks ih =>
    intro s r h
    cases hg : getAttr payload k0 with
    | none =>
      simp only [buildEntries, hg] at h
      obtain ⟨ihs, ihr⟩ := ih s r h
      constructor
      · intro k v
        rw [ihs k v, List.mem_cons]
        constructor
        · rintro ⟨hk, hc⟩; exact ⟨Or.inr hk, hc⟩
        · rintro ⟨rfl | hk, hc⟩
          · obtain ⟨w, hw, -, -⟩ := hc
            rw [hg] at hw
            simp at hw
          · exact ⟨hk, hc⟩
      · intro k
        rw [ihr k, List.mem_cons]
        constructor
        · rintro ⟨hk, hc⟩; exact ⟨Or.inr hk, hc⟩
        · rintro ⟨rfl | hk, hc⟩
          · obtain ⟨w, hw, -, -⟩ := hc
            rw [hg] at hw
            simp at hw
          · exact ⟨hk, hc⟩
    | some v =>
      simp only [buildEntries, hg] at h
      by_cases hcond : k0 ∈ removableKeys ∧ (v = Val.null ∨ v = Val.str "")
      · rw [if_pos hcond] at h
        cases hb : buildEntries payload ks with
        | error e => simp only [hb] at h; simp at h
        | ok p =>
          obtain ⟨s', r'⟩ := p
          simp only [hb, Except.ok.injEq, Prod.mk.injEq] at h
          obtain ⟨rfl, rfl⟩ := h
          obtain ⟨ihs, ihr⟩ := ih s' r' hb
          constructor
          · intro k v''
            rw [ihs k v'', List.mem_cons]
            constructor
            · rintro ⟨hk, hc⟩; exact ⟨Or.inr hk, hc⟩
            · rintro ⟨rfl | hk, hc⟩
              · obtain ⟨w, hw, hnc, -⟩ := hc
                rw [hg] at hw
                obtain rfl := Option.some.inj hw
                exact absurd hcond hnc
              · exact ⟨hk, hc⟩
          · intro k
            rw [List.mem_cons, ihr k, List.mem_cons]
            constructor
            · rintro (rfl | ⟨hk, hc⟩)
              · exact ⟨Or.inl rfl, v, hg, hcond.1, hcond.2⟩
              · exact ⟨Or.inr hk, hc⟩
            · rintro ⟨rfl | hk, hc⟩
              · exact Or.inl rfl
              · exact Or.inr ⟨hk, hc⟩
      · rw [if_neg hcond] at h
        cases hc : coerceForSet k0 v with
        | error e => simp only [hc] at h; simp at h
        | ok v' =>
          simp only [hc] at h
          cases hb : buildEntries payload ks with
          | error e => simp only [hb] at h; simp at h
          | ok p =>
            obtain ⟨s', r'⟩ := p
            simp only [hb, Except.ok.injEq, Prod.mk.injEq] at h
            obtain ⟨rfl, rfl⟩ := h
            obtain ⟨ihs, ihr⟩ := ih s' r' hb
            constructor
            · intro k v''
              rw [List.mem_cons, ihs k v'', List.mem_cons]
              constructor
              · rintro (hkv | ⟨hk, hc'⟩)
                · obtain ⟨rfl, rfl⟩ := Prod.mk.injEq .. |>.mp hkv
                  exact ⟨Or.inl rfl, v, hg, hcond, hc⟩
                · exact ⟨Or.inr hk, hc'⟩
              · rintro ⟨rfl | hk, hc'⟩
                · obtain ⟨w, hw, -, hco⟩ := hc'
                  rw [hg] at hw
                  obtain rfl := Option.some.inj hw
                  rw [hc] at hco
                  obtain rfl := Except.ok.inj hco
                  exact Or.inl rfl
                · exact Or.inr ⟨hk, hc'⟩
            · intro k
              rw [ihr k, List.mem_cons]
              constructor
              · rintro ⟨hk, hc'⟩; exact ⟨Or.inr hk, hc'⟩
              · rintro ⟨rfl | hk, hc'⟩
                · obtain ⟨w, hw, hrm, hwv⟩ := hc'
                  rw [hg] at hw
                  obtain rfl := Option.some.inj hw
                  exact absurd ⟨hrm, hwv⟩ hcond
                · exact ⟨hk, hc'⟩

/-- The loop succeeds whenever every present value of a listed key can be
coerced (in particular whenever no `sort` value needs a failing
`Decimal(str(v))`). -/
theorem buildEntries_ok_of_coerce (payload : Item) :
    ∀ ks, (∀ k v, k ∈ ks → getAttr payload k = some v →
        ∃ u, coerceForSet k v = .ok u) →
      ∃ s r, buildEntries payload ks = .ok (s, r) := by
  intro ks
  induction ks with
  | nil => intro _; exact ⟨[], [], rfl⟩
  | cons k0 ks ih =>
    intro hco
    obtain ⟨s, r, hb⟩ := ih fun k v hk hv => hco k v (List.mem_cons_of_mem _ hk) hv
    cases hg : getAttr payload k0 with
    | none =>
      refine ⟨s, r, ?_⟩
      simp only [buildEntries, hg]
      exact hb
    | some v =>
      by_cases hcond : k0 ∈ removableKeys ∧ (v = Val.null ∨ v = Val.str "")
      · refine ⟨s, k0 :: r, ?_⟩
        simp only [buildEntries, hg]
        rw [if_pos hcond, hb]
      · obtain ⟨u, hu⟩ := hco k0 v (List.mem_cons_self _ _) hg
        refine ⟨(k0, u) :: s, r, ?_⟩
        simp only [buildEntries, hg]
        rw [if_neg hcond, hu, hb]

/-- Inversion of a successful (non-no-op) builder run: the spec is the
loop's entries with `updated_at` appended to the `SET` list. -/
theorem update_spec_some_inv (now : String) (payload : Item) (spec : UpdateSpec)
    (h : _update_spec_from_payload now payload = .ok (some spec)) :
    ∃ s r, buildEntries payload mutableKeys = .ok (s, r) ∧
      spec.setExpr = s ++ [("updated_at", Val.str now)] ∧ spec.removeExpr = r := by
  unfold _update_spec_from_payload at h
  cases hb : buildEntries payload mutableKeys with
  | error e => simp only [hb] at h; simp at h
  | ok p =>
    obtain ⟨s, r⟩ := p
    simp only [hb] at h
    split at h
    · simp at h
    · simp only [Except.ok.injEq, Option.some.injEq] at h
      subst h
      exact ⟨s, r, rfl, rfl, rfl⟩

/-- C6: the builder reports the no-op `None` exactly when the payload
contains none of the six recognised mutable fields; and whenever it does
return a mutation, that mutation sets `updated_at` to now. -/
theorem update_spec_noop_iff_no_recognized_field (now : String) (payload : Item) :
    (_update_spec_from_payload now payload = .ok none ↔
      ∀ k ∈ mutableKeys, getAttr payload k = none) ∧
    ∀ spec, _update_spec_from_payload now payload = .ok (some spec) →
      ("updated_at", Val.str now) ∈ spec.setExpr := by
  constructor
  · constructor
    · intro h
      unfold _update_spec_from_payload at h
      cases hb : buildEntries payload mutableKeys with
      | error e => simp only [hb] at h; simp at h
      | ok p =>
        obtain ⟨s, r⟩ := p
        simp only [hb] at h
        split at h
        · next hsr =>
          obtain ⟨rfl, rfl⟩ := hsr
          exact absent_of_buildEntries_nil payload mutableKeys hb
        · simp at h
    · intro hall
      have hb := buildEntries_of_absent payload mutableKeys hall
      unfold _update_spec_from_payload
      simp only [hb]
      simp
  · intro spec h
    obtain ⟨s, r, _, hset, _⟩ := update_spec_some_inv now payload spec h
    rw [hset]
    exact List.mem_append_right _ (List.mem_singleton.mpr rfl)

/-- C6 witness: a payload with only an unrecognised key is a no-op; a
payload setting `title` yields a mutation whose `SET` list carries
`updated_at`. -/
theorem update_spec_noop_iff_no_recognized_field_w :
    _update_spec_from_payload "T" [("foo", Val.str "x")] = .ok none ∧
    ("updated_at", Val.str "T") ∈
      (UpdateSpec.mk [("title", Val.str "hi"), ("updated_at", Val.str "T")] []).setExpr :=
  ⟨(update_spec_noop_iff_no_recognized_field "T" [("foo", Val.str "x")]).1.mpr (by decide),
   (update_spec_noop_iff_no_recognized_field "T" [("title", Val.str "hi")]).2 _ rfl⟩

/-- C7: for `due_date` / `parent_id` / `details`, a null or empty-string
payload value schedules a removal and never a set; any other present value
schedules a set of exactly that value and no removal; an absent field is
neither set nor removed. -/
theorem update_spec_removable_field_semantics (now : String) (payload : Item)
    (k : String) (spec : UpdateSpec) (hk : k ∈ removableKeys)
    (hspec : _update_spec_from_payload now payload = .ok (some spec)) :
    ((getAttr payload k = some Val.null ∨ getAttr payload k = some (Val.str "")) →
      k ∈ spec.removeExpr ∧ ∀ v, ¬ (k, v) ∈ spec.setExpr) ∧
    (∀ v, getAttr payload k = some v → ¬ v = Val.null → ¬ v = Val.str "" →
      (k, v) ∈ spec.setExpr ∧ ¬ k ∈ spec.removeExpr) ∧
    (getAttr payload k = none →
      (∀ v, ¬ (k, v) ∈ spec.setExpr) ∧ ¬ k ∈ spec.removeExpr) := by
  obtain ⟨s, r, hb, hset, hrem⟩ := update_spec_some_inv now payload spec hspec
  obtain ⟨hsmem, hrmem⟩ := mem_buildEntries payload mutableKeys s r hb
  have hk3 : k = "due_date" ∨ k = "parent_id" ∨ k = "details" := by
    simpa [removableKeys] using hk
  have hkm : k ∈ mutableKeys := by
    rcases hk3 with rfl | rfl | rfl <;> decide
  have hkns : ¬ k = "sort" := by
    rcases hk3 with rfl | rfl | rfl <;> decide
  have hknu : ¬ k = "updated_at" := by
    rcases hk3 with rfl | rfl | rfl <;> decide
  refine ⟨?_, ?_, ?_⟩
  · intro hval
    constructor
    · rw [hrem]
      refine (hrmem k).mpr ⟨hkm, ?_⟩
      rcases hval with h | h
      · exact ⟨Val.null, h, hk, Or.inl rfl⟩
      · exact ⟨Val.str "", h, hk, Or.inr rfl⟩
    · intro v hv
      rw [hset] at hv
      rcases List.mem_append.mp hv with hv | hv
      · obtain ⟨-, w, hw, hnc, -⟩ := (hsmem k v).mp hv
        rcases hval with h | h <;> rw [h] at hw <;>
          obtain rfl := Option.some.inj hw
        · exact hnc ⟨hk, Or.inl rfl⟩
        · exact hnc ⟨hk, Or.inr rfl⟩
      · have : (k, v) = ("updated_at", Val.str now) := List.mem_singleton.mp hv
        exact hknu (congrArg Prod.fst this)
  · intro v hv hvn hvs
    constructor
    · rw [hset]
      refine List.mem_append_left _ ((hsmem k v).mpr ⟨hkm, v, hv, ?_, ?_⟩)
      · rintro ⟨-, hc | hc⟩
        · exact hvn hc
        · exact hvs hc
      · simp [coerceForSet, hkns]
    · rw [hrem]
      intro hr
      obtain ⟨-, w, hw, -, hwv⟩ := (hrmem k).mp hr
      rw [hv] at hw
      obtain rfl := Option.some.inj hw
      rcases hwv with hc | hc
      · exact hvn hc
      · exact hvs hc
  · intro hnone
    constructor
    · intro v hv
      rw [hset] at hv
      rcases List.mem_append.mp hv with hv | hv
      · obtain ⟨-, w, hw, -, -⟩ := (hsmem k v).mp hv
        rw [hnone] at hw
        simp at hw
      · have : (k, v) = ("updated_at", Val.str now) := List.mem_singleton.mp hv
        exact hknu (congrArg Prod.fst this)
    · rw [hrem]
      intro hr
      obtain ⟨-, w, hw, -, -⟩ := (hrmem k).mp hr
      rw [hnone] at hw
      simp at hw

/-- C7 witness: the payload `\x7b"due_date": ""\x7d` yields a mutation that
removes `due_date` (and, from the theorem's other branch, a genuine
`due_date` value is set, not removed). -/
theorem update_spec_removable_field_semantics_w :
    "due_date" ∈ (UpdateSpec.mk [("updated_at", Val.str "T")] ["due_date"]).removeExpr :=
  ((update_spec_removable_field_semantics "T" [("due_date", Val.str "")] "due_date"
      (UpdateSpec.mk [("updated_at", Val.str "T")] ["due_date"])
      (by decide) rfl).1 (Or.inr rfl)).1

/-- C10: a payload carrying `"sort": null` is not a no-op and does not go
through the removal branch or the `Decimal` coercion: the builder emits a
`SET sort = null` instruction with the raw null (which the store will then
reject, DynamoDB update expressions cannot `SET` a field to `NULL`'s
absence sentinel), never a `REMOVE sort`, and never a `Decimal` value. -/
theorem update_spec_sort_null_passthrough (now : String) (payload : Item)
    (h : getAttr payload "sort" = some Val.null) :
    (∃ spec, _update_spec_from_payload now payload = .ok (some spec)) ∧
    ∀ spec, _update_spec_from_payload now payload = .ok (some spec) →
      ("sort", Val.null) ∈ spec.setExpr ∧ ¬ "sort" ∈ spec.removeExpr ∧
      ∀ q, ¬ ("sort", Val.dec q) ∈ spec.setExpr := by
  have hco : ∀ k v, k ∈ mutableKeys → getAttr payload k = some v →
      ∃ u, coerceForSet k v = .ok u := by
    intro k v _ hv
    by_cases hks : k = "sort"
    · subst hks
      rw [h] at hv
      obtain rfl := Option.some.inj hv
      exact ⟨Val.null, by simp [coerceForSet]⟩
    · exact ⟨v, by simp [coerceForSet, hks]⟩
  obtain ⟨s, r, hb⟩ := buildEntries_ok_of_coerce payload mutableKeys hco
  obtain ⟨hsmem, hrmem⟩ := mem_buildEntries payload mutableKeys s r hb
  have hsortmem : ("sort", Val.null) ∈ s := by
    refine (hsmem "sort" Val.null).mpr ⟨by decide, Val.null, h, ?_, by simp [coerceForSet]⟩
    rintro ⟨hrm, -⟩
    exact absurd hrm (by decide)
  constructor
  · refine ⟨⟨s ++ [("updated_at", .str now)], r⟩, ?_⟩
    unfold _update_spec_from_payload
    simp only [hb]
    rw [if_neg fun hsr => List.not_mem_nil _ (hsr.1 ▸ hsortmem)]
  · intro spec hspec
    obtain ⟨s2, r2, hb2, hset, hrem⟩ := update_spec_some_inv now payload spec hspec
    obtain ⟨hsmem2, hrmem2⟩ := mem_buildEntries payload mutableKeys s2 r2 hb2
    have hsortmem2 : ("sort", Val.null) ∈ s2 := by
      refine (hsmem2 "sort" Val.null).mpr ⟨by decide, Val.null, h, ?_, by simp [coerceForSet]⟩
      rintro ⟨hrm, -⟩
      exact absurd hrm (by decide)
    refine ⟨?_, ?_, ?_⟩
    · rw [hset]
      exact List.mem_append_left _ hsortmem2
    · rw [hrem]
      intro hr
      obtain ⟨-, w, hw, hrm, -⟩ := (hrmem2 "sort").mp hr
      exact absurd hrm (by decide)
    · intro q hq
      rw [hset] at hq
      rcases List.mem_append.mp hq with hq | hq
      · obtain ⟨-, w, hw, -, hcoe⟩ := (hsmem2 "sort" (Val.dec q)).mp hq
        rw [h] at hw
        obtain rfl := Option.some.inj hw
        simp [coerceForSet] at hcoe
      · have : (("sort" : String), Val.dec q) = ("updated_at", Val.str now) :=
          List.mem_singleton.mp hq
        simp at this

/-- C10 witness: the one-key payload `\x7b"sort": null\x7d` produces the
mutation `SET sort = null, updated_at = now` with no removal. -/
theorem update_spec_sort_null_passthrough_w :
    ("sort", Val.null) ∈
      (UpdateSpec.mk [("sort", Val.null), ("updated_at", Val.str "T")] []).setExpr ∧
    ¬ "sort" ∈
      (UpdateSpec.mk [("sort", Val.null), ("updated_at", Val.str "T")] []).removeExpr :=
  have h := (update_spec_sort_null_passthrough "T" [("sort", Val.null)] rfl).2
    (UpdateSpec.mk [("sort", Val.null), ("updated_at", Val.str "T")] []) rfl
  ⟨h.1, h.2.1⟩

/-! ### Listing order -/

unseal List.merge List.mergeSort in
/-- C4 counterexample: `noSortItem` has no `sort` field yet `list_tasks`
places it *before* `highSortItem`, whose `sort` value 2·10^18 exceeds the
finite 1e18 default used for missing keys — an item lacking `sort` is not
placed after all items that have one. -/
theorem list_tasks_missing_sort_not_last_cex :
    list_tasks sortStore "me" = .ok [noSortItem, highSortItem] ∧
    getAttr noSortItem "sort" = none ∧
    getAttr highSortItem "sort" = some (Val.num 2000000000000000000) := by
  refine ⟨rfl, by decide, by decide⟩

/-- C4 (amended): `list_tasks` returns the owner's items as a permutation
sorted ascending by the *defaulted* sort key, where a missing `sort` field
counts as the constant 10^18 — so a missing-sort item follows every item
whose sort value is below 10^18, but not one whose sort value is at least
10^18. -/
theorem list_tasks_sorted_by_defaulted_key (st : Store) (user : String)
    (l : List Item) (h : list_tasks st user = .ok l) :
    List.Sorted (fun a b => sortKeyD a ≤ sortKeyD b) l ∧
    l.Perm (queryUser st user) := by
  simp only [list_tasks] at h
  split at h
  · obtain rfl := Except.ok.inj h
    constructor
    · refine List.Pairwise.imp (fun hab => of_decide_eq_true hab) ?_
      refine List.sorted_mergeSort ?_ ?_ (queryUser st user)
      · intro a b c hab hbc
        exact decide_eq_true
          (le_trans (of_decide_eq_true hab) (of_decide_eq_true hbc))
      · intro a b
        simpa using le_total (sortKeyD a) (sortKeyD b)
    · exact List.mergeSort_perm _ _
  · exact absurd h (by simp)

unseal List.merge List.mergeSort in
/-- C4 witness: on the two-item fixture the returned order
`[noSortItem, highSortItem]` is sorted by the defaulted key and is a
permutation of the owner's items. -/
theorem list_tasks_sorted_by_defaulted_key_w :
    List.Sorted (fun a b => sortKeyD a ≤ sortKeyD b) [noSortItem, highSortItem] ∧
    List.Perm [noSortItem, highSortItem] (queryUser sortStore "me") :=
  list_tasks_sorted_by_defaulted_key sortStore "me" [noSortItem, highSortItem] rfl

/-! ### Bulk -/

/-- Every branch of one bulk iteration stamps the running index `i` on its
record; an error record additionally carries the op's own id and lowered
action. -/
theorem bulkStep_entry (now user : String) (st : Store) (i : Nat) (op : BulkOp) :
    (∀ r, (bulkStep now user st i op).2 = .inl r → r.i = i) ∧
    (∀ e, (bulkStep now user st i op).2 = .inr e →
      e.i = i ∧ e.id = op.id ∧ e.action = lowerAction op) := by
  obtain ⟨oid, oact, opay⟩ := op
  cases oid with
  | none =>
    constructor
    · intro r hr
      cases hr
    · intro e he
      cases he
      exact ⟨rfl, rfl, rfl⟩
  | some tid =>
    constructor <;> intro x hx <;> simp only [bulkStep] at hx <;>
      (repeat' split at hx) <;>
      first
        | (cases hx; exact ⟨rfl, rfl, rfl⟩)
        | (cases hx; exact rfl)
        | cases hx

/-- Invariants of the bulk loop run from index `i`: one record per op
(success or error, no aborts), indices at least `i` and strictly increasing
in both output lists, and every error record pointing back to the op at its
original index with that op's id and lowered action. -/
theorem bulkRun_spec (now user : String) :
    ∀ (ops : List BulkOp) (st : Store) (i : Nat),
      ((bulkRun now user st i ops).2.1.length +
        (bulkRun now user st i ops).2.2.length = ops.length) ∧
      (∀ r ∈ (bulkRun now user st i ops).2.1, i ≤ r.i) ∧
      (∀ e ∈ (bulkRun now user st i ops).2.2, i ≤ e.i ∧
        ∃ op, ops[e.i - i]? = some op ∧ e.id = op.id ∧ e.action = lowerAction op) ∧
      List.Pairwise (fun a b => a.i < b.i) (bulkRun now user st i ops).2.1 ∧
      List.Pairwise (fun a b => a.i < b.i) (bulkRun now user st i ops).2.2 := by
  intro ops
  induction ops with
  | nil =>
    intro st i
    simp [bulkRun]
  | cons op ops ih =>
    intro st i
    have hent := bulkStep_entry now user st i op
    rcases hstep : bulkStep now user st i op with ⟨st1, entry⟩
    cases entry with
    | inl r =>
      have hr : r.i = i := hent.1 r (by rw [hstep])
      obtain ⟨ihlen, ihr, ihe, ihp1, ihp2⟩ := ih st1 (i + 1)
      simp only [bulkRun, hstep]
      refine ⟨?_, ?_, ?_, ?_, ihp2⟩
      · simp only [List.length_cons]
        omega
      · intro r' hr'
        rcases List.mem_cons.mp hr' with rfl | h'
        · omega
        · exact le_trans (Nat.le_succ i) (ihr r' h')
      · intro e he
        obtain ⟨hle, op', hop', hid, hact⟩ := ihe e he
        refine ⟨le_trans (Nat.le_succ i) hle, op', ?_, hid, hact⟩
        have h1 : e.i - i = (e.i - (i + 1)) + 1 := by omega
        rw [h1, List.getElem?_cons_succ]
        exact hop'
      · refine List.pairwise_cons.mpr ⟨?_, ihp1⟩
        intro b hb
        have := ihr b hb
        omega
    | inr e =>
      have he0 : e.i = i ∧ e.id = op.id ∧ e.action = lowerAction op :=
        hent.2 e (by rw [hstep])
      obtain ⟨ihlen, ihr, ihe, ihp1, ihp2⟩ := ih st1 (i + 1)
      simp only [bulkRun, hstep]
      refine ⟨?_, ?_, ?_, ihp1, ?_⟩
      · simp only [List.length_cons]
        omega
      · intro r' hr'
        exact le_trans (Nat.le_succ i) (ihr r' hr')
      · intro e' he'
        rcases List.mem_cons.mp he' with rfl | h'
        · refine ⟨le_of_eq he0.1.symm, op, ?_, he0.2.1, he0.2.2⟩
          rw [he0.1, Nat.sub_self, List.getElem?_cons_zero]
        · obtain ⟨hle, op', hop', hid, hact⟩ := ihe e' h'
          refine ⟨le_trans (Nat.le_succ i) hle, op', ?_, hid, hact⟩
          have h1 : e'.i - i = (e'.i - (i + 1)) + 1 := by omega
          rw [h1, List.getElem?_cons_succ]
          exact hop'
      · refine List.pairwise_cons.mpr ⟨?_, ihp2⟩
        intro b hb
        have := (ihe b hb).1
        omega

/-- C8: a batch longer than 50 ops is rejected untouched before any op
runs; otherwise the ops run in array order, each op yields exactly one
success or one error record (a failing op never aborts its siblings), the
overall flag is true iff the error list is empty, and every error record
carries its op's original index, id, lowered action and a message. -/
theorem bulk_batch_semantics (now user : String) (st : Store) (ops : List BulkOp) :
    (50 < ops.length → bulk_tasks now user st ops = (.tooMany, st)) ∧
    (ops.length ≤ 50 →
      ∃ ok st' rs es, bulk_tasks now user st ops = (.done ok rs es, st') ∧
        (ok = true ↔ es = []) ∧
        rs.length + es.length = ops.length ∧
        (∀ e ∈ es, ∃ op, ops[e.i]? = some op ∧ e.id = op.id ∧
          e.action = lowerAction op) ∧
        List.Pairwise (fun a b => a.i < b.i) rs ∧
        List.Pairwise (fun a b => a.i < b.i) es) := by
  constructor
  · intro h
    unfold bulk_tasks
    rw [if_pos h]
  · intro h
    obtain ⟨hlen, hr, he, hp1, hp2⟩ := bulkRun_spec now user ops st 0
    refine ⟨decide ((bulkRun now user st 0 ops).2.2.length = 0),
      (bulkRun now user st 0 ops).1, (bulkRun now user st 0 ops).2.1,
      (bulkRun now user st 0 ops).2.2, ?_, ?_, hlen, ?_, hp1, hp2⟩
    · unfold bulk_tasks
      rw [if_neg (by omega)]
    · simp [List.length_eq_zero]
    · intro e hee
      obtain ⟨-, op', hop', hid, hact⟩ := he e hee
      refine ⟨op', ?_, hid, hact⟩
      simpa using hop'

/-- C8 witness: a 51-op batch is rejected as too many with the store
untouched (before any op runs). -/
theorem bulk_batch_semantics_w :
    bulk_tasks "T" "me" demoStore (List.replicate 51 (BulkOp.mk none none none)) =
      (.tooMany, demoStore) :=
  (bulk_batch_semantics "T" "me" demoStore
    (List.replicate 51 (BulkOp.mk none none none))).1 (by decide)

end ToDo
